import Mathlib

/-!
Verification of the `ml_eda` reporting/export component
(`ml_eda/reporting/analysis_exporter.py` and `ml_eda/reporting/exporter_utils.py`).

The Python code is embedded shallowly:

* protobuf messages (`Analysis`, `Attribute`, `ScalarMetric`, `TableMetric`)
  become plain Lean structures; float metric values become `Rat`;
* Python dictionaries (and `collections.OrderedDict`) become insertion-ordered
  association lists with replace-in-place-or-append insertion (`dictInsert`);
* a `pandas.DataFrame` is modelled by its column labels, row index and
  row-major cell data; `to_csv` side effects are modelled by recording the
  target path in a write log;
* code that can raise (`list[0]`, `assert`, `pd.concat([])`, calling a method
  on `None`) runs in `Except String`, the error string naming the Python
  exception.
-/

/-- Attribute type enum (`run_metadata_pb2.Attribute.{NUMERICAL, CATEGORICAL}`). -/
inductive AttributeType where
  | NUMERICAL
  | CATEGORICAL
deriving DecidableEq, Repr

/-- An attribute: name plus type (`run_metadata_pb2.Attribute`). -/
structure Attribute where
  name : String
  type : AttributeType
deriving DecidableEq, Repr

/-- Analysis kind enum (`run_metadata_pb2.Analysis.Name`). -/
inductive AnalysisName where
  | DESCRIPTIVE
  | HISTOGRAM
  | VALUE_COUNTS
  | PEARSON_CORRELATION
  | INFORMATION_GAIN
  | ANOVA
  | CHI_SQUARE
  | CONTINGENCY_TABLE
  | TABLE_DESCRIPTIVE
deriving DecidableEq, Repr

/-- Table-metric kind enum (`run_metadata_pb2.TableMetric`). -/
inductive TableMetricName where
  | CONTINGENCY_TABLE
  | TABLE_DESCRIPTIVE
  | HISTOGRAM
  | VALUE_COUNTS
deriving DecidableEq, Repr

/-- A scalar metric; the Python enum-valued `name` is represented by the
string `ScalarMetric.Name.Name(...)` would produce. -/
structure ScalarMetric where
  name : String
  value : Rat
deriving DecidableEq, Repr

/-- One cell of a nested table metric. -/
structure TableCell where
  value : Rat
deriving DecidableEq, Repr

/-- One row of a nested table metric (`rowIndex` plus its cells). -/
structure TableRow where
  row_index : String
  cells : List TableCell
deriving DecidableEq, Repr

/-- A nested table metric (`run_metadata_pb2.TableMetric`). -/
structure TableMetric where
  name : TableMetricName
  column_indexes : List String
  rows : List TableRow
deriving DecidableEq, Repr

/-- An analysis record (`run_metadata_pb2.Analysis`): metric kind, one or two
feature attributes, scalar metrics and table metrics. -/
structure Analysis where
  name : AnalysisName
  features : List Attribute
  smetrics : List ScalarMetric
  tmetrics : List TableMetric
deriving DecidableEq, Repr

/-- A cell value in an exported table: either a number or a string literal
(`'NA'` is used as the ANOVA diagonal value). -/
inductive PValue where
  | num (v : Rat)
  | str (s : String)
deriving DecidableEq, Repr

/-- A `pandas.DataFrame`, reduced to what the exporter observes: ordered
column labels, ordered row index, row-major data, and the index name. -/
structure DataFrame where
  columns : List String
  index : List String
  data : List (List PValue)
  indexName : String
deriving DecidableEq, Repr

/-- Python `dict` / `OrderedDict` insertion: replace the (unique) existing
binding in place, else append at the end. -/
def dictInsert {α β : Type} [DecidableEq α] (l : List (α × β)) (k : α) (v : β) :
    List (α × β) :=
  match l with
  | [] => [(k, v)]
  | p :: t => if p.1 = k then (k, v) :: t else p :: dictInsert t k v

/-- First-match lookup in an association list. -/
def dictLookup {α β : Type} [DecidableEq α] (l : List (α × β)) (k : α) : Option β :=
  match l with
  | [] => none
  | p :: t => if p.1 = k then some p.2 else dictLookup t k

theorem dictLookup_dictInsert_self {α β : Type} [DecidableEq α]
    (l : List (α × β)) (k : α) (v : β) :
    dictLookup (dictInsert l k v) k = some v := by
  induction l with
  | nil => simp [dictInsert, dictLookup]
  | cons p t ih =>
    by_cases h : p.1 = k
    · simp [dictInsert, dictLookup, h]
    · simp [dictInsert, dictLookup, h, ih]

theorem dictLookup_dictInsert_ne {α β : Type} [DecidableEq α]
    (l : List (α × β)) (k k' : α) (v : β) (h : k' ≠ k) :
    dictLookup (dictInsert l k v) k' = dictLookup l k' := by
  have hne : ¬ k = k' := fun hk => h hk.symm
  induction l with
  | nil => simp [dictInsert, dictLookup, hne]
  | cons p t ih =>
    by_cases hp : p.1 = k
    · subst hp
      simp [dictInsert, dictLookup, hne]
    · by_cases hp' : p.1 = k'
      · simp [dictInsert, dictLookup, hp, hp', h]
      · simp [dictInsert, dictLookup, hp, hp', h, ih]

theorem dictLookup_dictInsert_some {α β : Type} [DecidableEq α]
    (l : List (α × β)) (k k' : α) (v : β)
    (h : dictLookup (dictInsert l k v) k' ≠ none) :
    k' = k ∨ dictLookup l k' ≠ none := by
  by_cases hk : k' = k
  · exact Or.inl hk
  · right
    rw [dictLookup_dictInsert_ne l k k' v hk] at h
    exact h

/-- Keys of an association list, in order. -/
def dictKeys {α β : Type} (l : List (α × β)) : List α := l.map Prod.fst

theorem dictKeys_dictInsert_of_mem {α β : Type} [DecidableEq α]
    (l : List (α × β)) (k : α) (v : β) (h : k ∈ dictKeys l) :
    dictKeys (dictInsert l k v) = dictKeys l := by
  induction l with
  | nil => simp [dictKeys] at h
  | cons p t ih =>
    by_cases hp : p.1 = k
    · simp [dictInsert, dictKeys, hp]
    · have ht : k ∈ dictKeys t := by
        simp [dictKeys] at h
        rcases h with h | h
        · exact absurd h.symm hp
        · simpa [dictKeys] using h
      simp [dictInsert, dictKeys, hp]
      simpa [dictKeys] using ih ht

/-- `[0]` on a Python list: first element or `IndexError`. -/
def headE {α : Type} (l : List α) : Except String α :=
  match l with
  | [] => Except.error "IndexError: list index out of range"
  | x :: _ => Except.ok x

theorem headE_ok_of_ne_nil {α : Type} (l : List α) (h : l ≠ []) :
    ∃ a, headE l = Except.ok a := by
  cases l with
  | nil => exact absurd rfl h
  | cons x t => exact ⟨x, rfl⟩

theorem ne_nil_of_headE_ok {α : Type} (l : List α) (a : α)
    (h : headE l = Except.ok a) : l ≠ [] := by
  cases l with
  | nil => simp [headE] at h
  | cons x t => simp

/-! ### Column-order constants

`COMMON_ORDER`, `NUMERICAL_ORDER` and `CATEGORICAL_ORDER` live in
`ml_eda/constants.py`, which is not part of the sources at hand. -/

/-- Modelled from the spec: the fixed common column order shared by numerical
and categorical descriptive rows (`ml_eda.constants.COMMON_ORDER` is missing
from the sources; the spec fixes only that the lists are fixed global
constants, so representative entries are used — no theorem below depends on
the particular entries). -/
def COMMON_ORDER : List String := ["total_count", "missing"]

/-- Modelled from the spec: the numerical-specific column order
(`ml_eda.constants.NUMERICAL_ORDER`, missing from the sources). -/
def NUMERICAL_ORDER : List String := ["mean", "std", "min", "max", "median"]

/-- Modelled from the spec: the categorical-specific column order
(`ml_eda.constants.CATEGORICAL_ORDER`, missing from the sources). -/
def CATEGORICAL_ORDER : List String := ["cardinality", "unique"]

/-- The type-dependent detail order chosen by
`create_df_descriptive_row_from_analysis`: `NUMERICAL_ORDER` when the first
feature is numerical, `CATEGORICAL_ORDER` otherwise. -/
def detailOrder (t : AttributeType) : List String :=
  if t = AttributeType.NUMERICAL then NUMERICAL_ORDER else CATEGORICAL_ORDER

/-- The `OrderedDict` built by `create_df_descriptive_row_from_analysis`:
every column of `common_order + detail_order` initialised to `0`, then each
scalar metric written at its name. -/
def descriptiveRowDict (analysis : Analysis) : Except String (List (String × Rat)) :=
  match analysis.features with
  | [] => Except.error "IndexError: list index out of range"
  | f :: _ =>
    let init := (COMMON_ORDER ++ detailOrder f.type).map (fun n => (n, (0 : Rat)))
    Except.ok (analysis.smetrics.foldl (fun h m => dictInsert h m.name m.value) init)

/-- `exporter_utils.create_df_descriptive_row_from_analysis`: one DataFrame
row indexed by the attribute name, columns and values from the ordered dict. -/
def create_df_descriptive_row_from_analysis (attribute_name : String)
    (analysis : Analysis) : Except String DataFrame :=
  match descriptiveRowDict analysis with
  | Except.error e => Except.error e
  | Except.ok d =>
    Except.ok ⟨dictKeys d, [attribute_name], [d.map (fun p => PValue.num p.2)], ""⟩

/-! ### Nested-table builders -/

/-- Whitespace test used to model Python's `str.strip()`. -/
def isWsChar (c : Char) : Bool :=
  c = ' ' ∨ c = '\t' ∨ c = '\n' ∨ c = '\r'

/-- Drop leading whitespace characters. -/
def dropLeadingWs : List Char → List Char
  | [] => []
  | c :: t => if isWsChar c then dropLeadingWs t else c :: t

/-- Python `str.strip()`: drop leading and trailing whitespace. -/
def stripStr (s : String) : String :=
  String.mk ((dropLeadingWs (dropLeadingWs s.data.reverse).reverse))

/-- The row dictionary built by both nested-table builders: maps each row
header to the list of its cell values (a Python `OrderedDict`, so a repeated
header overwrites in place). -/
def tableRowsDict (headerOf : TableRow → String) (rows : List TableRow) :
    List (String × List Rat) :=
  rows.foldl
    (fun td row => dictInsert td (headerOf row) (row.cells.map (fun c => c.value)))
    []

/-- `pd.DataFrame.from_dict(data, columns, orient='index')`: row labels from
the dict keys, data from the dict values; a row whose width differs from
`columns` raises `ValueError` in pandas. -/
def dataFrameFromDict (data : List (String × List Rat)) (columns : List String) :
    Except String DataFrame :=
  if data.all (fun p => p.2.length = columns.length) then
    Except.ok
      ⟨columns, dictKeys data, data.map (fun p => p.2.map PValue.num), ""⟩
  else Except.error "ValueError: columns passed, passed data had different columns"

/-- `exporter_utils.create_df_from_TableMetric`: asserts the metric kind is
`CONTINGENCY_TABLE` or `TABLE_DESCRIPTIVE`, then pivots `rows`/`columnIndexes`
into a DataFrame; row headers are the stripped `rowIndex` strings. -/
def create_df_from_TableMetric (table_metric : TableMetric) : Except String DataFrame :=
  if table_metric.name = TableMetricName.CONTINGENCY_TABLE ∨
      table_metric.name = TableMetricName.TABLE_DESCRIPTIVE then
    dataFrameFromDict
      (tableRowsDict (fun row => stripStr row.row_index) table_metric.rows)
      table_metric.column_indexes
  else Except.error "AssertionError"

/-- The row-dictionary loop of `create_df_from_simple_TableMetric`: every row
is keyed by the first feature's name (`features[0]` is read inside the loop,
so an empty feature list only raises when at least one row exists). -/
def simpleRowsDict (analysis : Analysis) :
    List TableRow → List (String × List Rat) →
    Except String (List (String × List Rat))
  | [], td => Except.ok td
  | row :: rest, td =>
    match headE analysis.features with
    | Except.error e => Except.error e
    | Except.ok f =>
      simpleRowsDict analysis rest
        (dictInsert td f.name (row.cells.map (fun c => c.value)))

/-- `exporter_utils.create_df_from_simple_TableMetric`: asserts the analysis
kind is `HISTOGRAM` or `VALUE_COUNTS`, takes the first table metric, and
labels every row with the first feature's name. -/
def create_df_from_simple_TableMetric (analysis : Analysis) : Except String DataFrame :=
  if analysis.name = AnalysisName.HISTOGRAM ∨
      analysis.name = AnalysisName.VALUE_COUNTS then
    match headE analysis.tmetrics with
    | Except.error e => Except.error e
    | Except.ok tm =>
      match simpleRowsDict analysis tm.rows [] with
      | Except.error e => Except.error e
      | Except.ok td => dataFrameFromDict td tm.column_indexes
  else Except.error "AssertionError"

/-! ### Pairwise metric builders -/

/-- One iteration of the `create_no_order_pair_metric_df` loop: write the
record's value at the feature-name tuple and its reverse, then the
`same_match_value` at each feature's diagonal key. -/
def noOrderStep (same_match_value : PValue)
    (m : List (List String × PValue)) (item : Analysis) :
    Except String (List (List String × PValue)) :=
  match item.smetrics with
  | [] => Except.error "IndexError: list index out of range"
  | sm :: _ =>
    let name_list := item.features.map (fun att => att.name)
    let m1 := dictInsert m name_list (PValue.num sm.value)
    let m2 := dictInsert m1 name_list.reverse (PValue.num sm.value)
    Except.ok
      (item.features.foldl
        (fun mm att => dictInsert mm [att.name, att.name] same_match_value) m2)

/-- The loop of `create_no_order_pair_metric_df` over the analysis list. -/
def noOrderLoop (same_match_value : PValue) :
    List Analysis → List (List String × PValue) →
    Except String (List (List String × PValue))
  | [], m => Except.ok m
  | item :: rest, m =>
    match noOrderStep same_match_value m item with
    | Except.error e => Except.error e
    | Except.ok m' => noOrderLoop same_match_value rest m'

/-- `exporter_utils.create_no_order_pair_metric_df`: the symmetric pairwise
cell map (the subsequent `pd.DataFrame(...).T.unstack()` pivot only reshapes
these cells into a wide table; `table_name` is the row label of the
intermediate one-row frame and does not affect the cells; the Python local
`attribute_list` is collected but never read, so it is omitted here). -/
def create_no_order_pair_metric_df (analysis_list : List Analysis)
    (same_match_value : PValue) (table_name : String) :
    Except String (List (List String × PValue)) :=
  noOrderLoop same_match_value analysis_list []

/-- One iteration of the `create_order_pair_metric_df` loop: write the value
at the feature-name tuple, then overwrite with `same_match_value` when the
first two feature names coincide (`name_list[1]` raises `IndexError` when
fewer than two features are present). -/
def orderStep (same_match_value : PValue)
    (m : List (List String × PValue)) (item : Analysis) :
    Except String (List (List String × PValue)) :=
  match item.smetrics with
  | [] => Except.error "IndexError: list index out of range"
  | sm :: _ =>
    let name_list := item.features.map (fun att => att.name)
    let m1 := dictInsert m name_list (PValue.num sm.value)
    match name_list with
    | n0 :: n1 :: _ =>
      if n0 = n1 then Except.ok (dictInsert m1 name_list same_match_value)
      else Except.ok m1
    | _ => Except.error "IndexError: list index out of range"

/-- The loop of `create_order_pair_metric_df` over the analysis list. -/
def orderLoop (same_match_value : PValue) :
    List Analysis → List (List String × PValue) →
    Except String (List (List String × PValue))
  | [], m => Except.ok m
  | item :: rest, m =>
    match orderStep same_match_value m item with
    | Except.error e => Except.error e
    | Except.ok m' => orderLoop same_match_value rest m'

/-- `exporter_utils.create_order_pair_metric_df`: the order-preserving
pairwise cell map (as above, the final pivot only reshapes the cells). -/
def create_order_pair_metric_df (analysis_list : List Analysis)
    (same_match_value : PValue) (table_name : String) :
    Except String (List (List String × PValue)) :=
  orderLoop same_match_value analysis_list []

/-! ### The result store -/

/-- Modelled from the spec: the `AnalysisTracker` result store
(`ml_eda/orchestration/analysis_tracker.py` is not part of the sources at
hand). Per the spec it owns the dataset's attributes and all `Analysis`
records and answers two queries: all records of a metric kind, and all
records of a metric kind touching a given attribute. -/
structure AnalysisTracker where
  attributes : List Attribute
  analyses : List Analysis
deriving DecidableEq, Repr

/-- Modelled from the spec: names of the numerical attributes of the run. -/
def AnalysisTracker.getNumericalAttributes (t : AnalysisTracker) : List String :=
  (t.attributes.filter (fun a => a.type = AttributeType.NUMERICAL)).map
    (fun a => a.name)

/-- Modelled from the spec: names of the categorical attributes of the run. -/
def AnalysisTracker.getCategoricalAttributes (t : AnalysisTracker) : List String :=
  (t.attributes.filter (fun a => a.type = AttributeType.CATEGORICAL)).map
    (fun a => a.name)

/-- Modelled from the spec: all records of one metric kind, any attributes. -/
def AnalysisTracker.getAnalysis (t : AnalysisTracker) (kind : AnalysisName) :
    List Analysis :=
  t.analyses.filter (fun a => a.name = kind)

/-- Modelled from the spec: all records of one metric kind involving the
named attribute. -/
def AnalysisTracker.getAttributeAnalysis (t : AnalysisTracker) (att : String)
    (kind : AnalysisName) : List Analysis :=
  t.analyses.filter
    (fun a => a.name = kind ∧ att ∈ a.features.map (fun f => f.name))

/-! ### `AnalysisExporter` -/

/-- The per-numerical-attribute loop of `AnalysisExporter.get_descriptive`:
for each attribute, take the first `DESCRIPTIVE` record and build its
descriptive row, then the first `HISTOGRAM` record and build its single-row
table, keyed `HISTOGRAM-<att>`. -/
def descNumLoop (t : AnalysisTracker) :
    List String → List DataFrame × List (String × DataFrame) →
    Except String (List DataFrame × List (String × DataFrame))
  | [], acc => Except.ok acc
  | att :: rest, acc =>
    match headE (t.getAttributeAnalysis att AnalysisName.DESCRIPTIVE) with
    | Except.error e => Except.error e
    | Except.ok base =>
      match create_df_descriptive_row_from_analysis att base with
      | Except.error e => Except.error e
      | Except.ok row =>
        match headE (t.getAttributeAnalysis att AnalysisName.HISTOGRAM) with
        | Except.error e => Except.error e
        | Except.ok additional =>
          match create_df_from_simple_TableMetric additional with
          | Except.error e => Except.error e
          | Except.ok hist =>
            descNumLoop t rest
              (acc.1 ++ [row], dictInsert acc.2 ("HISTOGRAM-" ++ att) hist)

/-- The per-categorical-attribute loop of `AnalysisExporter.get_descriptive`:
as `descNumLoop` but the additional record kind is `VALUE_COUNTS`. -/
def descCatLoop (t : AnalysisTracker) :
    List String → List DataFrame × List (String × DataFrame) →
    Except String (List DataFrame × List (String × DataFrame))
  | [], acc => Except.ok acc
  | att :: rest, acc =>
    match headE (t.getAttributeAnalysis att AnalysisName.DESCRIPTIVE) with
    | Except.error e => Except.error e
    | Except.ok base =>
      match create_df_descriptive_row_from_analysis att base with
      | Except.error e => Except.error e
      | Except.ok row =>
        match headE (t.getAttributeAnalysis att AnalysisName.VALUE_COUNTS) with
        | Except.error e => Except.error e
        | Except.ok additional =>
          match create_df_from_simple_TableMetric additional with
          | Except.error e => Except.error e
          | Except.ok vc =>
            descCatLoop t rest
              (acc.1 ++ [row], dictInsert acc.2 ("VALUE_COUNTS-" ++ att) vc)

/-- `pd.concat`: raises `ValueError` on an empty list, otherwise stacks the
rows (all frames concatenated here share one column set). -/
def concatDf (dfs : List DataFrame) : Except String DataFrame :=
  match dfs with
  | [] => Except.error "ValueError: No objects to concatenate"
  | d :: _ =>
    Except.ok
      ⟨d.columns, (dfs.map (fun df => df.index)).flatten,
        (dfs.map (fun df => df.data)).flatten, d.indexName⟩

/-- `AnalysisExporter.get_descriptive`: numerical loop, `DESCRIPTIVE-numerical`
concatenation, categorical loop, `DESCRIPTIVE-categorical` concatenation. -/
def get_descriptive (t : AnalysisTracker) :
    Except String (List (String × DataFrame)) :=
  match descNumLoop t t.getNumericalAttributes ([], []) with
  | Except.error e => Except.error e
  | Except.ok acc1 =>
    match concatDf acc1.1 with
    | Except.error e => Except.error e
    | Except.ok numConcat =>
      let contents1 := dictInsert acc1.2 "DESCRIPTIVE-numerical" numConcat
      match descCatLoop t t.getCategoricalAttributes ([], contents1) with
      | Except.error e => Except.error e
      | Except.ok acc2 =>
        match concatDf acc2.1 with
        | Except.error e => Except.error e
        | Except.ok catConcat =>
          Except.ok (dictInsert acc2.2 "DESCRIPTIVE-categorical" catConcat)

/-- `AnalysisExporter.get_pearson_correlation`: `None` when no record of the
kind exists, otherwise the symmetric pair table with diagonal `1.0`. -/
def get_pearson_correlation (t : AnalysisTracker) :
    Except String (Option (List (List String × PValue))) :=
  let corr_analysis := t.getAnalysis AnalysisName.PEARSON_CORRELATION
  if corr_analysis.isEmpty then Except.ok none
  else
    match create_no_order_pair_metric_df corr_analysis (PValue.num 1)
        "Pearson Correlation" with
    | Except.error e => Except.error e
    | Except.ok m => Except.ok (some m)

/-- `AnalysisExporter.get_information_gain`: `None` when no record of the
kind exists, otherwise the symmetric pair table with diagonal `0.0`. -/
def get_information_gain (t : AnalysisTracker) :
    Except String (Option (List (List String × PValue))) :=
  let info_analysis := t.getAnalysis AnalysisName.INFORMATION_GAIN
  if info_analysis.isEmpty then Except.ok none
  else
    match create_no_order_pair_metric_df info_analysis (PValue.num 0)
        "Information-Gain" with
    | Except.error e => Except.error e
    | Except.ok m => Except.ok (some m)

/-- `AnalysisExporter.get_anova`: `None` when no record of the kind exists,
otherwise the ordered pair table with diagonal literal `'NA'`. -/
def get_anova (t : AnalysisTracker) :
    Except String (Option (List (List String × PValue))) :=
  let anova_analysis := t.getAnalysis AnalysisName.ANOVA
  if anova_analysis.isEmpty then Except.ok none
  else
    match create_order_pair_metric_df anova_analysis (PValue.str "NA") "NA" with
    | Except.error e => Except.error e
    | Except.ok m => Except.ok (some m)

/-- `AnalysisExporter.get_chi_square`: `None` when no record of the kind
exists, otherwise the symmetric pair table with diagonal `0.0`. -/
def get_chi_square (t : AnalysisTracker) :
    Except String (Option (List (List String × PValue))) :=
  let chi_square_analysis := t.getAnalysis AnalysisName.CHI_SQUARE
  if chi_square_analysis.isEmpty then Except.ok none
  else
    match create_no_order_pair_metric_df chi_square_analysis (PValue.num 0)
        "Chi-Square" with
    | Except.error e => Except.error e
    | Except.ok m => Except.ok (some m)

/-- The per-record loop shared by `get_contingency_table` and
`get_table_descriptive`: build the nested table of the first table metric,
set its index name to `<a> / <b>`, and key it `<keyStem>-<a>-<b>`. -/
def nestedTableLoop (keyStem : String) :
    List Analysis → List (String × DataFrame) →
    Except String (List (String × DataFrame))
  | [], acc => Except.ok acc
  | analysis :: rest, acc =>
    let attributes := analysis.features.map (fun item => item.name)
    match headE analysis.tmetrics with
    | Except.error e => Except.error e
    | Except.ok tm =>
      match create_df_from_TableMetric tm with
      | Except.error e => Except.error e
      | Except.ok df =>
        match attributes with
        | a0 :: a1 :: _ =>
          let df2 : DataFrame := ⟨df.columns, df.index, df.data, a0 ++ " / " ++ a1⟩
          nestedTableLoop keyStem rest
            (dictInsert acc (keyStem ++ "-" ++ a0 ++ "-" ++ a1) df2)
        | _ => Except.error "IndexError: tuple index out of range"

/-- `AnalysisExporter.get_contingency_table`: `None` when no record of the
kind exists, otherwise one nested table per record, keyed
`CONTINGENCY_TABLE-<a>-<b>`. -/
def get_contingency_table (t : AnalysisTracker) :
    Except String (Option (List (String × DataFrame))) :=
  let analysis_results := t.getAnalysis AnalysisName.CONTINGENCY_TABLE
  if analysis_results.isEmpty then Except.ok none
  else
    match nestedTableLoop "CONTINGENCY_TABLE" analysis_results [] with
    | Except.error e => Except.error e
    | Except.ok m => Except.ok (some m)

/-- `AnalysisExporter.get_table_descriptive`: `None` when no record of the
kind exists, otherwise one nested table per record, keyed
`TABLE_DESCRIPTIVE-<a>-<b>`. -/
def get_table_descriptive (t : AnalysisTracker) :
    Except String (Option (List (String × DataFrame))) :=
  let analysis_results := t.getAnalysis AnalysisName.TABLE_DESCRIPTIVE
  if analysis_results.isEmpty then Except.ok none
  else
    match nestedTableLoop "TABLE_DESCRIPTIVE" analysis_results [] with
    | Except.error e => Except.error e
    | Except.ok m => Except.ok (some m)

/-- `os.path.join` for the paths the exporter builds. -/
def joinPath (base name : String) : String := base ++ "/" ++ name

/-- `<something>.to_csv(path)` on an `Optional` table: appends `path` to the
write log when the table exists, and raises `AttributeError` when the Python
value is `None`. -/
def toCsvOptional {α : Type} (o : Option α) (path : String) (writes : List String) :
    Except String (List String) :=
  match o with
  | some _ => Except.ok (writes ++ [path])
  | none => Except.error "AttributeError: 'NoneType' object has no attribute 'to_csv'"

/-- `AnalysisExporter.export`. Returns the `output_paths` mapping together
with the log of file paths actually written, or the first exception raised.
Faithful quirks of the original:
* the descriptive section writes each file at `export_path + '.csv'`
  (`data.to_csv('{}{}'.format(export_path, '.csv'))`) although `output_paths`
  records `export_path`;
* the four pairwise sections insert their key into `output_paths` before
  calling `to_csv`, which raises when the getter returned `None`;
* `get_table_descriptive`'s `None` raises at `.items()`;
* `get_contingency_table` is never called.

(`export` is a Lean keyword, so the method is named `exportAnalyses` here.) -/
def exportAnalyses (t : AnalysisTracker) (export_base_path : String) :
    Except String (List (String × String) × List String) :=
  match get_descriptive t with
  | Except.error e => Except.error e
  | Except.ok descriptive =>
    let acc0 := descriptive.foldl
      (fun (acc : List (String × String) × List String) nd =>
        let export_path := joinPath export_base_path (nd.1 ++ ".csv")
        (dictInsert acc.1 nd.1 export_path, acc.2 ++ [export_path ++ ".csv"]))
      ([], [])
    match get_pearson_correlation t with
    | Except.error e => Except.error e
    | Except.ok pearson_correlation =>
      let path1 := joinPath export_base_path "PEARSON_CORRELATION.csv"
      let paths1 := dictInsert acc0.1 "PEARSON_CORRELATION" path1
      match toCsvOptional pearson_correlation path1 acc0.2 with
      | Except.error e => Except.error e
      | Except.ok writes1 =>
        match get_information_gain t with
        | Except.error e => Except.error e
        | Except.ok information_gain =>
          let path2 := joinPath export_base_path "INFORMATION_GAIN.csv"
          let paths2 := dictInsert paths1 "INFORMATION_GAIN" path2
          match toCsvOptional information_gain path2 writes1 with
          | Except.error e => Except.error e
          | Except.ok writes2 =>
            match get_anova t with
            | Except.error e => Except.error e
            | Except.ok anova =>
              let path3 := joinPath export_base_path "ANOVA.csv"
              let paths3 := dictInsert paths2 "ANOVA" path3
              match toCsvOptional anova path3 writes2 with
              | Except.error e => Except.error e
              | Except.ok writes3 =>
                match get_chi_square t with
                | Except.error e => Except.error e
                | Except.ok chi_square =>
                  let path4 := joinPath export_base_path "CHI_SQUARE.csv"
                  let paths4 := dictInsert paths3 "CHI_SQUARE" path4
                  match toCsvOptional chi_square path4 writes3 with
                  | Except.error e => Except.error e
                  | Except.ok writes4 =>
                    match get_table_descriptive t with
                    | Except.error e => Except.error e
                    | Except.ok none =>
                      Except.error
                        "AttributeError: 'NoneType' object has no attribute 'items'"
                    | Except.ok (some table_descriptive) =>
                      Except.ok
                        (table_descriptive.foldl
                          (fun (acc : List (String × String) × List String) nd =>
                            let export_path :=
                              joinPath export_base_path (nd.1 ++ ".csv")
                            (dictInsert acc.1 nd.1 export_path,
                              acc.2 ++ [export_path]))
                          (paths4, writes4))

/-! ### Concrete example data

A small result store exercising every export section, plus variants with
parts removed. Used by the concrete theorems below. -/

/-- Example numerical attribute. -/
def attrAge : Attribute := ⟨"age", AttributeType.NUMERICAL⟩

/-- Example categorical attribute. -/
def attrCity : Attribute := ⟨"city", AttributeType.CATEGORICAL⟩

/-- A `DESCRIPTIVE` record for `age` with metrics `mean = 30`, `std = 5`. -/
def exDescAge : Analysis :=
  ⟨AnalysisName.DESCRIPTIVE, [attrAge], [⟨"mean", 30⟩, ⟨"std", 5⟩], []⟩

/-- A `HISTOGRAM` record for `age`: bins `0-20`, `20-40` with counts 2, 8. -/
def exHistAge : Analysis :=
  ⟨AnalysisName.HISTOGRAM, [attrAge], [],
    [⟨TableMetricName.HISTOGRAM, ["0-20", "20-40"], [⟨"0", [⟨2⟩, ⟨8⟩]⟩]⟩]⟩

/-- A `DESCRIPTIVE` record for `city` with metric `cardinality = 3`. -/
def exDescCity : Analysis :=
  ⟨AnalysisName.DESCRIPTIVE, [attrCity], [⟨"cardinality", 3⟩], []⟩

/-- A `VALUE_COUNTS` record for `city`: categories `NY`, `LA` with counts 4, 6. -/
def exVcCity : Analysis :=
  ⟨AnalysisName.VALUE_COUNTS, [attrCity], [],
    [⟨TableMetricName.VALUE_COUNTS, ["NY", "LA"], [⟨"0", [⟨4⟩, ⟨6⟩]⟩]⟩]⟩

/-- A `PEARSON_CORRELATION` record for the pair `(x, y)` valued `8`. -/
def exPearson : Analysis :=
  ⟨AnalysisName.PEARSON_CORRELATION,
    [⟨"x", AttributeType.NUMERICAL⟩, ⟨"y", AttributeType.NUMERICAL⟩],
    [⟨"value", 8⟩], []⟩

/-- An `INFORMATION_GAIN` record for the pair `(u, w)` valued `5`. -/
def exInfoGain : Analysis :=
  ⟨AnalysisName.INFORMATION_GAIN,
    [⟨"u", AttributeType.CATEGORICAL⟩, ⟨"w", AttributeType.CATEGORICAL⟩],
    [⟨"value", 5⟩], []⟩

/-- An `ANOVA` record for the ordered pair `(u, x)` valued `2`. -/
def exAnova : Analysis :=
  ⟨AnalysisName.ANOVA,
    [⟨"u", AttributeType.CATEGORICAL⟩, ⟨"x", AttributeType.NUMERICAL⟩],
    [⟨"value", 2⟩], []⟩

/-- A `CHI_SQUARE` record for the pair `(u, w)` valued `3`. -/
def exChiSquare : Analysis :=
  ⟨AnalysisName.CHI_SQUARE,
    [⟨"u", AttributeType.CATEGORICAL⟩, ⟨"w", AttributeType.CATEGORICAL⟩],
    [⟨"value", 3⟩], []⟩

/-- A `TABLE_DESCRIPTIVE` record for the pair `(u, x)` with a 1×2 table. -/
def exTableDesc : Analysis :=
  ⟨AnalysisName.TABLE_DESCRIPTIVE,
    [⟨"u", AttributeType.CATEGORICAL⟩, ⟨"x", AttributeType.NUMERICAL⟩], [],
    [⟨TableMetricName.TABLE_DESCRIPTIVE, ["c1", "c2"], [⟨"r1", [⟨1⟩, ⟨2⟩]⟩]⟩]⟩

/-- A `CONTINGENCY_TABLE` record for the pair `(u, w)` with a 1×2 table. -/
def exContingency : Analysis :=
  ⟨AnalysisName.CONTINGENCY_TABLE,
    [⟨"u", AttributeType.CATEGORICAL⟩, ⟨"w", AttributeType.CATEGORICAL⟩], [],
    [⟨TableMetricName.CONTINGENCY_TABLE, ["k1", "k2"], [⟨"r1", [⟨1⟩, ⟨2⟩]⟩]⟩]⟩

/-- A store holding records of every kind every export section consumes,
including a `CONTINGENCY_TABLE` record. -/
def tFull : AnalysisTracker :=
  ⟨[attrAge, attrCity],
    [exDescAge, exHistAge, exDescCity, exVcCity, exPearson, exInfoGain,
      exAnova, exChiSquare, exTableDesc, exContingency]⟩

/-- `tFull` with every `INFORMATION_GAIN` record removed. -/
def tNoInfoGain : AnalysisTracker :=
  ⟨[attrAge, attrCity],
    [exDescAge, exHistAge, exDescCity, exVcCity, exPearson,
      exAnova, exChiSquare, exTableDesc, exContingency]⟩

/-- A store whose only attribute is categorical: no numerical attributes at
all, with every pairwise kind still present. -/
def tNoNumerical : AnalysisTracker :=
  ⟨[attrCity],
    [exDescCity, exVcCity, exPearson, exInfoGain, exAnova, exChiSquare,
      exTableDesc]⟩

/-- A store with a numerical attribute whose `HISTOGRAM` record is missing. -/
def tNoHistogram : AnalysisTracker := ⟨[attrAge], [exDescAge]⟩

/-! ### What `export` reads from the store -/

/-- The store with every `CONTINGENCY_TABLE` record removed. -/
def dropContingency (t : AnalysisTracker) : AnalysisTracker :=
  ⟨t.attributes,
    t.analyses.filter (fun a => ¬ a.name = AnalysisName.CONTINGENCY_TABLE)⟩

theorem getAnalysis_dropContingency (t : AnalysisTracker) (k : AnalysisName)
    (hk : k ≠ AnalysisName.CONTINGENCY_TABLE) :
    (dropContingency t).getAnalysis k = t.getAnalysis k := by
  unfold dropContingency AnalysisTracker.getAnalysis
  simp only [List.filter_filter]
  apply List.filter_congr
  intro a _
  by_cases h : a.name = k
  · subst h
    simp [hk]
  · simp [h]

theorem getAttributeAnalysis_dropContingency (t : AnalysisTracker)
    (att : String) (k : AnalysisName)
    (hk : k ≠ AnalysisName.CONTINGENCY_TABLE) :
    (dropContingency t).getAttributeAnalysis att k =
      t.getAttributeAnalysis att k := by
  unfold dropContingency AnalysisTracker.getAttributeAnalysis
  simp only [List.filter_filter]
  apply List.filter_congr
  intro a _
  by_cases h : a.name = k
  · simp [h]
    exact fun _ _ _ => hk
  · simp [h]

theorem descNumLoop_dropContingency (t : AnalysisTracker) (atts : List String)
    (acc : List DataFrame × List (String × DataFrame)) :
    descNumLoop (dropContingency t) atts acc = descNumLoop t atts acc := by
  induction atts generalizing acc with
  | nil => rfl
  | cons att rest ih =>
    have hd := getAttributeAnalysis_dropContingency t att
      AnalysisName.DESCRIPTIVE (by decide)
    have hh := getAttributeAnalysis_dropContingency t att
      AnalysisName.HISTOGRAM (by decide)
    cases h1 : headE (t.getAttributeAnalysis att AnalysisName.DESCRIPTIVE) with
    | error e => simp [descNumLoop, hd, hh, h1]
    | ok base =>
      cases h2 : create_df_descriptive_row_from_analysis att base with
      | error e => simp [descNumLoop, hd, hh, h1, h2]
      | ok row =>
        cases h3 : headE (t.getAttributeAnalysis att AnalysisName.HISTOGRAM) with
        | error e => simp [descNumLoop, hd, hh, h1, h2, h3]
        | ok additional =>
          cases h4 : create_df_from_simple_TableMetric additional with
          | error e => simp [descNumLoop, hd, hh, h1, h2, h3, h4]
          | ok hist => simp [descNumLoop, hd, hh, h1, h2, h3, h4, ih]

theorem descCatLoop_dropContingency (t : AnalysisTracker) (atts : List String)
    (acc : List DataFrame × List (String × DataFrame)) :
    descCatLoop (dropContingency t) atts acc = descCatLoop t atts acc := by
  induction atts generalizing acc with
  | nil => rfl
  | cons att rest ih =>
    have hd := getAttributeAnalysis_dropContingency t att
      AnalysisName.DESCRIPTIVE (by decide)
    have hv := getAttributeAnalysis_dropContingency t att
      AnalysisName.VALUE_COUNTS (by decide)
    cases h1 : headE (t.getAttributeAnalysis att AnalysisName.DESCRIPTIVE) with
    | error e => simp [descCatLoop, hd, hv, h1]
    | ok base =>
      cases h2 : create_df_descriptive_row_from_analysis att base with
      | error e => simp [descCatLoop, hd, hv, h1, h2]
      | ok row =>
        cases h3 : headE (t.getAttributeAnalysis att AnalysisName.VALUE_COUNTS) with
        | error e => simp [descCatLoop, hd, hv, h1, h2, h3]
        | ok additional =>
          cases h4 : create_df_from_simple_TableMetric additional with
          | error e => simp [descCatLoop, hd, hv, h1, h2, h3, h4]
          | ok vc => simp [descCatLoop, hd, hv, h1, h2, h3, h4, ih]

theorem get_descriptive_dropContingency (t : AnalysisTracker) :
    get_descriptive (dropContingency t) = get_descriptive t := by
  have hnum : (dropContingency t).getNumericalAttributes =
      t.getNumericalAttributes := rfl
  have hcat : (dropContingency t).getCategoricalAttributes =
      t.getCategoricalAttributes := rfl
  cases h1 : descNumLoop t t.getNumericalAttributes ([], []) with
  | error e =>
    simp [get_descriptive, hnum, hcat, descNumLoop_dropContingency, h1]
  | ok acc1 =>
    cases h2 : concatDf acc1.1 with
    | error e =>
      simp [get_descriptive, hnum, hcat, descNumLoop_dropContingency, h1, h2]
    | ok numConcat =>
      cases h3 : descCatLoop t t.getCategoricalAttributes
          ([], dictInsert acc1.2 "DESCRIPTIVE-numerical" numConcat) with
      | error e =>
        simp [get_descriptive, hnum, hcat, descNumLoop_dropContingency,
          descCatLoop_dropContingency, h1, h2, h3]
      | ok acc2 =>
        cases h4 : concatDf acc2.1 with
        | error e =>
          simp [get_descriptive, hnum, hcat, descNumLoop_dropContingency,
            descCatLoop_dropContingency, h1, h2, h3, h4]
        | ok catConcat =>
          simp [get_descriptive, hnum, hcat, descNumLoop_dropContingency,
            descCatLoop_dropContingency, h1, h2, h3, h4]

theorem get_pearson_correlation_dropContingency (t : AnalysisTracker) :
    get_pearson_correlation (dropContingency t) = get_pearson_correlation t := by
  unfold get_pearson_correlation
  rw [getAnalysis_dropContingency t AnalysisName.PEARSON_CORRELATION (by decide)]

theorem get_information_gain_dropContingency (t : AnalysisTracker) :
    get_information_gain (dropContingency t) = get_information_gain t := by
  unfold get_information_gain
  rw [getAnalysis_dropContingency t AnalysisName.INFORMATION_GAIN (by decide)]

theorem get_anova_dropContingency (t : AnalysisTracker) :
    get_anova (dropContingency t) = get_anova t := by
  unfold get_anova
  rw [getAnalysis_dropContingency t AnalysisName.ANOVA (by decide)]

theorem get_chi_square_dropContingency (t : AnalysisTracker) :
    get_chi_square (dropContingency t) = get_chi_square t := by
  unfold get_chi_square
  rw [getAnalysis_dropContingency t AnalysisName.CHI_SQUARE (by decide)]

theorem get_table_descriptive_dropContingency (t : AnalysisTracker) :
    get_table_descriptive (dropContingency t) = get_table_descriptive t := by
  unfold get_table_descriptive
  rw [getAnalysis_dropContingency t AnalysisName.TABLE_DESCRIPTIVE (by decide)]

/-! ### Claims C1, C2, C3, C9 -/

/-- C1. The claim says: with no records of a pair-metric kind (here
`INFORMATION_GAIN`), `export` returns a mapping without that kind's key,
writes no file for it and raises no error. The code instead inserts the key
into `output_paths` and then calls `.to_csv` on the `None` returned by the
getter, raising `AttributeError`: on a store with records of every other
kind but no `INFORMATION_GAIN` record, `export` raises instead of
returning. -/
theorem c1_missing_pair_kind_raises :
    tNoInfoGain.getAnalysis AnalysisName.INFORMATION_GAIN = [] ∧
    exportAnalyses tNoInfoGain "out" =
      Except.error "AttributeError: 'NoneType' object has no attribute 'to_csv'" :=
  ⟨rfl, rfl⟩

/-- C2. The claim says every entry of the returned mapping names the path
actually written. For the descriptive/histogram/value-counts section the
code records `outputDir/<name>.csv` in the mapping but writes the file at
`outputDir/<name>.csv.csv` (`data.to_csv('{}{}'.format(export_path,
'.csv'))`): on a concrete full store the `HISTOGRAM-age` entry maps to
`out/HISTOGRAM-age.csv`, yet the write log contains
`out/HISTOGRAM-age.csv.csv` and not `out/HISTOGRAM-age.csv`. -/
theorem c2_descriptive_written_path_mismatch :
    (exportAnalyses tFull "out").toOption.map
        (fun r => dictLookup r.1 "HISTOGRAM-age") =
      some (some "out/HISTOGRAM-age.csv") ∧
    (exportAnalyses tFull "out").toOption.map
        (fun r => r.2.contains "out/HISTOGRAM-age.csv.csv") = some true ∧
    (exportAnalyses tFull "out").toOption.map
        (fun r => r.2.contains "out/HISTOGRAM-age.csv") = some false :=
  ⟨rfl, rfl, rfl⟩

/-- C3 counterexample. On a store containing a `CONTINGENCY_TABLE` record
for the pair `(u, w)`, `export` succeeds but its mapping has no
`CONTINGENCY_TABLE-u-w` key, although the (never invoked) helper
`get_contingency_table` would produce exactly that key. -/
theorem c3_contingency_key_absent_from_export :
    (∃ a ∈ tFull.analyses, a.name = AnalysisName.CONTINGENCY_TABLE) ∧
    (exportAnalyses tFull "out").toOption.map
        (fun r => dictLookup r.1 "CONTINGENCY_TABLE-u-w") = some none ∧
    (get_contingency_table tFull).toOption.map
        (fun o => o.map (fun m => dictKeys m)) =
      some (some ["CONTINGENCY_TABLE-u-w"]) :=
  ⟨⟨exContingency, by simp [tFull], rfl⟩, rfl, rfl⟩

/-- C3 (amended). `export` never consults the `CONTINGENCY_TABLE` results:
its outcome — mapping, write log, or exception — is identical on any store
and on that store with every `CONTINGENCY_TABLE` record removed. The
`CONTINGENCY_TABLE-<a>-<b>` nested-table exports are built only by
`get_contingency_table`, which `export` never calls. -/
theorem c3_export_ignores_contingency_records (t : AnalysisTracker)
    (base : String) :
    exportAnalyses (dropContingency t) base = exportAnalyses t base := by
  unfold exportAnalyses
  rw [get_descriptive_dropContingency, get_pearson_correlation_dropContingency,
    get_information_gain_dropContingency, get_anova_dropContingency,
    get_chi_square_dropContingency, get_table_descriptive_dropContingency]

/-- C9. The claim says an empty per-attribute record set — in particular no
numerical attributes at all — makes the export step skip the table. The code
instead reaches `pd.concat` on an empty list, which raises `ValueError`: on
a store whose only attribute is categorical, `get_descriptive` (and with it
`export`) raises rather than skipping `DESCRIPTIVE-numerical`. -/
theorem c9_no_numerical_attributes_raises :
    tNoNumerical.getNumericalAttributes = [] ∧
    get_descriptive tNoNumerical =
      Except.error "ValueError: No objects to concatenate" ∧
    exportAnalyses tNoNumerical "out" =
      Except.error "ValueError: No objects to concatenate" :=
  ⟨rfl, rfl, rfl⟩

/-- C7. The nested-table builder `create_df_from_TableMetric` hits its
`assert` — a precondition violation raised before any table is built — for
exactly the table metrics whose kind is neither `CONTINGENCY_TABLE` nor
`TABLE_DESCRIPTIVE`; metrics of those two kinds never trip the assertion. -/
theorem c7_nested_table_kind_assert (tm : TableMetric) :
    create_df_from_TableMetric tm = Except.error "AssertionError" ↔
      ¬ (tm.name = TableMetricName.CONTINGENCY_TABLE ∨
          tm.name = TableMetricName.TABLE_DESCRIPTIVE) := by
  unfold create_df_from_TableMetric
  by_cases h : tm.name = TableMetricName.CONTINGENCY_TABLE ∨
      tm.name = TableMetricName.TABLE_DESCRIPTIVE
  · simp [h]
    unfold dataFrameFromDict
    split
    · simp
    · simp
  · simp [h]

/-- C8. For a `HISTOGRAM` or `VALUE_COUNTS` record with one feature and one
single-row table metric (whose row is as wide as the column-index list),
`create_df_from_simple_TableMetric` returns the table with exactly one row
labelled by the record's first feature name, the metric's column indexes as
columns in order, and the row's cell values in order. -/
theorem c8_single_row_table (analysis : Analysis) (f : Attribute)
    (tm : TableMetric) (row : TableRow)
    (hname : analysis.name = AnalysisName.HISTOGRAM ∨
      analysis.name = AnalysisName.VALUE_COUNTS)
    (hfeat : analysis.features = [f])
    (htm : analysis.tmetrics = [tm])
    (hrows : tm.rows = [row])
    (hlen : row.cells.length = tm.column_indexes.length) :
    create_df_from_simple_TableMetric analysis =
      Except.ok ⟨tm.column_indexes, [f.name],
        [row.cells.map (fun c => PValue.num c.value)], ""⟩ := by
  unfold create_df_from_simple_TableMetric
  simp [hname, htm, headE, hfeat, simpleRowsDict, dictInsert,
    dataFrameFromDict, hrows, hlen, dictKeys]

theorem c8_witness :
    create_df_from_simple_TableMetric exHistAge =
      Except.ok ⟨["0-20", "20-40"], ["age"], [[PValue.num 2, PValue.num 8]], ""⟩ :=
  c8_single_row_table exHistAge attrAge
    ⟨TableMetricName.HISTOGRAM, ["0-20", "20-40"], [⟨"0", [⟨2⟩, ⟨8⟩]⟩]⟩
    ⟨"0", [⟨2⟩, ⟨8⟩]⟩ (Or.inl rfl) rfl rfl rfl rfl

theorem foldl_scalar_keys (ms : List ScalarMetric) :
    ∀ (l : List (String × Rat)), (∀ m ∈ ms, m.name ∈ dictKeys l) →
      dictKeys (ms.foldl (fun h m => dictInsert h m.name m.value) l) = dictKeys l := by
  induction ms with
  | nil => intro l _; rfl
  | cons m ms ih =>
    intro l hm
    have hk : dictKeys (dictInsert l m.name m.value) = dictKeys l :=
      dictKeys_dictInsert_of_mem l m.name m.value (hm m (by simp))
    have hrest : ∀ m' ∈ ms, m'.name ∈ dictKeys (dictInsert l m.name m.value) := by
      intro m' h'
      rw [hk]
      exact hm m' (List.mem_cons_of_mem _ h')
    rw [List.foldl_cons, ih _ hrest, hk]

theorem foldl_scalar_lookup_ne (ms : List ScalarMetric) :
    ∀ (l : List (String × Rat)) (n : String), (∀ m ∈ ms, m.name ≠ n) →
      dictLookup (ms.foldl (fun h m => dictInsert h m.name m.value) l) n =
        dictLookup l n := by
  induction ms with
  | nil => intro l n _; rfl
  | cons m ms ih =>
    intro l n hm
    rw [List.foldl_cons,
      ih _ n (fun m' h' => hm m' (List.mem_cons_of_mem _ h')),
      dictLookup_dictInsert_ne l m.name n m.value (Ne.symm (hm m (by simp)))]

theorem dictLookup_map_zero (order : List String) (n : String) (h : n ∈ order) :
    dictLookup (order.map (fun x => (x, (0 : Rat)))) n = some 0 := by
  induction order with
  | nil => simp at h
  | cons x xs ih =>
    by_cases hx : x = n
    · simp [dictLookup, hx]
    · have hn : n ∈ xs := by
        rcases List.mem_cons.mp h with h' | h'
        · exact absurd h'.symm hx
        · exact h'
      simp [dictLookup, hx, ih hn]

theorem dictKeys_map_zero (order : List String) :
    dictKeys (order.map (fun n => (n, (0 : Rat)))) = order := by
  induction order with
  | nil => rfl
  | cons x xs ih =>
    simp only [List.map_cons, dictKeys] at ih ⊢
    rw [ih]

/-- C4. For a `DESCRIPTIVE` record with a non-empty feature list whose scalar
metric names all lie in the configured orders, the row builder emits one row
(indexed by the attribute name) whose column sequence is `COMMON_ORDER`
followed by `NUMERICAL_ORDER` when the first feature is numerical and
`CATEGORICAL_ORDER` otherwise, with every column whose metric is absent from
the record valued `0`; and any record of the same first-feature type has the
identical column sequence regardless of its metric values. -/
theorem c4_descriptive_row_shape (attribute_name : String) (analysis : Analysis)
    (f : Attribute) (rest : List Attribute)
    (hf : analysis.features = f :: rest)
    (hm : ∀ m ∈ analysis.smetrics, m.name ∈ COMMON_ORDER ++ detailOrder f.type) :
    (∃ d, descriptiveRowDict analysis = Except.ok d ∧
      dictKeys d = COMMON_ORDER ++ detailOrder f.type ∧
      create_df_descriptive_row_from_analysis attribute_name analysis =
        Except.ok ⟨dictKeys d, [attribute_name],
          [d.map (fun p => PValue.num p.2)], ""⟩ ∧
      (∀ n ∈ COMMON_ORDER ++ detailOrder f.type,
        (∀ m ∈ analysis.smetrics, m.name ≠ n) → dictLookup d n = some 0)) ∧
    (∀ (analysis2 : Analysis) (g : Attribute) (rest2 : List Attribute),
      analysis2.features = g :: rest2 → g.type = f.type →
      (∀ m ∈ analysis2.smetrics,
        m.name ∈ COMMON_ORDER ++ detailOrder f.type) →
      ∃ df2, create_df_descriptive_row_from_analysis attribute_name analysis2 =
          Except.ok df2 ∧
        df2.columns = COMMON_ORDER ++ detailOrder f.type) := by
  have core : ∀ (a2 : Analysis) (g : Attribute) (r2 : List Attribute),
      a2.features = g :: r2 →
      (∀ m ∈ a2.smetrics, m.name ∈ COMMON_ORDER ++ detailOrder g.type) →
      ∃ d, descriptiveRowDict a2 = Except.ok d ∧
        dictKeys d = COMMON_ORDER ++ detailOrder g.type ∧
        create_df_descriptive_row_from_analysis attribute_name a2 =
          Except.ok ⟨dictKeys d, [attribute_name],
            [d.map (fun p => PValue.num p.2)], ""⟩ ∧
        (∀ n ∈ COMMON_ORDER ++ detailOrder g.type,
          (∀ m ∈ a2.smetrics, m.name ≠ n) → dictLookup d n = some 0) := by
    intro a2 g r2 hf2 hm2
    have hinitkeys :
        dictKeys ((COMMON_ORDER ++ detailOrder g.type).map
          (fun n => (n, (0 : Rat)))) = COMMON_ORDER ++ detailOrder g.type :=
      dictKeys_map_zero (COMMON_ORDER ++ detailOrder g.type)
    refine ⟨a2.smetrics.foldl (fun h m => dictInsert h m.name m.value)
      ((COMMON_ORDER ++ detailOrder g.type).map (fun n => (n, (0 : Rat)))),
      ?_, ?_, ?_, ?_⟩
    · unfold descriptiveRowDict
      rw [hf2]
    · rw [foldl_scalar_keys _ _ (by rw [hinitkeys]; exact hm2), hinitkeys]
    · unfold create_df_descriptive_row_from_analysis
      unfold descriptiveRowDict
      rw [hf2]
    · intro n _ hnone
      rw [foldl_scalar_lookup_ne _ _ n hnone]
      exact dictLookup_map_zero _ n (by assumption)
  constructor
  · exact core analysis f rest hf hm
  · intro a2 g r2 hf2 htype hm2
    rcases core a2 g r2 hf2 (by rw [htype]; exact hm2) with
      ⟨d, hd, hkeys, hcreate, hzero⟩
    exact ⟨_, hcreate, by simpa [htype] using hkeys⟩

theorem getAttributeAnalysis_ne_nil_iff (t : AnalysisTracker) (att : String)
    (k : AnalysisName) :
    t.getAttributeAnalysis att k ≠ [] ↔
      ∃ a ∈ t.analyses, a.name = k ∧ att ∈ a.features.map (fun f => f.name) := by
  unfold AnalysisTracker.getAttributeAnalysis
  rw [Ne, List.filter_eq_nil_iff]
  push_neg
  simp

theorem descNumLoop_ok_queries (t : AnalysisTracker) (atts : List String) :
    ∀ (acc : List DataFrame × List (String × DataFrame))
      (res : List DataFrame × List (String × DataFrame)),
      descNumLoop t atts acc = Except.ok res →
      ∀ att ∈ atts,
        t.getAttributeAnalysis att AnalysisName.DESCRIPTIVE ≠ [] ∧
        t.getAttributeAnalysis att AnalysisName.HISTOGRAM ≠ [] := by
  induction atts with
  | nil => intro acc res _ att hmem; simp at hmem
  | cons a rest ih =>
    intro acc res h att hmem
    unfold descNumLoop at h
    cases h1 : headE (t.getAttributeAnalysis a AnalysisName.DESCRIPTIVE) with
    | error e => simp [h1] at h
    | ok base =>
      simp only [h1] at h
      cases h2 : create_df_descriptive_row_from_analysis a base with
      | error e => simp [h2] at h
      | ok row =>
        simp only [h2] at h
        cases h3 : headE (t.getAttributeAnalysis a AnalysisName.HISTOGRAM) with
        | error e => simp [h3] at h
        | ok additional =>
          simp only [h3] at h
          cases h4 : create_df_from_simple_TableMetric additional with
          | error e => simp [h4] at h
          | ok hist =>
            simp only [h4] at h
            rcases List.mem_cons.mp hmem with rfl | hmem'
            · exact ⟨ne_nil_of_headE_ok _ _ h1, ne_nil_of_headE_ok _ _ h3⟩
            · exact ih _ res h att hmem'

theorem descCatLoop_ok_queries (t : AnalysisTracker) (atts : List String) :
    ∀ (acc : List DataFrame × List (String × DataFrame))
      (res : List DataFrame × List (String × DataFrame)),
      descCatLoop t atts acc = Except.ok res →
      ∀ att ∈ atts,
        t.getAttributeAnalysis att AnalysisName.DESCRIPTIVE ≠ [] ∧
        t.getAttributeAnalysis att AnalysisName.VALUE_COUNTS ≠ [] := by
  induction atts with
  | nil => intro acc res _ att hmem; simp at hmem
  | cons a rest ih =>
    intro acc res h att hmem
    unfold descCatLoop at h
    cases h1 : headE (t.getAttributeAnalysis a AnalysisName.DESCRIPTIVE) with
    | error e => simp [h1] at h
    | ok base =>
      simp only [h1] at h
      cases h2 : create_df_descriptive_row_from_analysis a base with
      | error e => simp [h2] at h
      | ok row =>
        simp only [h2] at h
        cases h3 : headE (t.getAttributeAnalysis a AnalysisName.VALUE_COUNTS) with
        | error e => simp [h3] at h
        | ok additional =>
          simp only [h3] at h
          cases h4 : create_df_from_simple_TableMetric additional with
          | error e => simp [h4] at h
          | ok vc =>
            simp only [h4] at h
            rcases List.mem_cons.mp hmem with rfl | hmem'
            · exact ⟨ne_nil_of_headE_ok _ _ h1, ne_nil_of_headE_ok _ _ h3⟩
            · exact ih _ res h att hmem'

theorem get_descriptive_ok_queries (t : AnalysisTracker)
    (d : List (String × DataFrame)) (h : get_descriptive t = Except.ok d) :
    (∀ att ∈ t.getNumericalAttributes,
      t.getAttributeAnalysis att AnalysisName.DESCRIPTIVE ≠ [] ∧
      t.getAttributeAnalysis att AnalysisName.HISTOGRAM ≠ []) ∧
    (∀ att ∈ t.getCategoricalAttributes,
      t.getAttributeAnalysis att AnalysisName.DESCRIPTIVE ≠ [] ∧
      t.getAttributeAnalysis att AnalysisName.VALUE_COUNTS ≠ []) := by
  unfold get_descriptive at h
  cases h1 : descNumLoop t t.getNumericalAttributes ([], []) with
  | error e => simp [h1] at h
  | ok acc1 =>
    rw [h1] at h
    cases h2 : concatDf acc1.1 with
    | error e => simp [h2] at h
    | ok numConcat =>
      simp only [h2] at h
      cases h3 : descCatLoop t t.getCategoricalAttributes
          ([], dictInsert acc1.2 "DESCRIPTIVE-numerical" numConcat) with
      | error e => simp [h3] at h
      | ok acc2 =>
        simp only [h3] at h
        exact ⟨descNumLoop_ok_queries t _ _ _ h1,
          descCatLoop_ok_queries t _ _ _ h3⟩

/-- C10. The descriptive export step's unstated precondition: when every
numerical attribute has at least one `DESCRIPTIVE` and one `HISTOGRAM` record
and every categorical attribute at least one `DESCRIPTIVE` and one
`VALUE_COUNTS` record in the store, taking the first element (`[0]`) of each
per-attribute query result never fails; and for any attribute missing such a
record, `get_descriptive` raises an error instead of skipping the
attribute. -/
theorem c10_descriptive_requires_first_records (t : AnalysisTracker) :
    ((∀ att ∈ t.getNumericalAttributes,
        (∃ a ∈ t.analyses, a.name = AnalysisName.DESCRIPTIVE ∧
          att ∈ a.features.map (fun f => f.name)) ∧
        (∃ a ∈ t.analyses, a.name = AnalysisName.HISTOGRAM ∧
          att ∈ a.features.map (fun f => f.name))) →
      (∀ att ∈ t.getCategoricalAttributes,
        (∃ a ∈ t.analyses, a.name = AnalysisName.DESCRIPTIVE ∧
          att ∈ a.features.map (fun f => f.name)) ∧
        (∃ a ∈ t.analyses, a.name = AnalysisName.VALUE_COUNTS ∧
          att ∈ a.features.map (fun f => f.name))) →
      (∀ att ∈ t.getNumericalAttributes,
        (∃ b, headE (t.getAttributeAnalysis att AnalysisName.DESCRIPTIVE) =
          Except.ok b) ∧
        (∃ b, headE (t.getAttributeAnalysis att AnalysisName.HISTOGRAM) =
          Except.ok b)) ∧
      (∀ att ∈ t.getCategoricalAttributes,
        (∃ b, headE (t.getAttributeAnalysis att AnalysisName.DESCRIPTIVE) =
          Except.ok b) ∧
        (∃ b, headE (t.getAttributeAnalysis att AnalysisName.VALUE_COUNTS) =
          Except.ok b))) ∧
    (∀ att,
      ((att ∈ t.getNumericalAttributes ∧
          (t.getAttributeAnalysis att AnalysisName.DESCRIPTIVE = [] ∨
            t.getAttributeAnalysis att AnalysisName.HISTOGRAM = [])) ∨
        (att ∈ t.getCategoricalAttributes ∧
          (t.getAttributeAnalysis att AnalysisName.DESCRIPTIVE = [] ∨
            t.getAttributeAnalysis att AnalysisName.VALUE_COUNTS = []))) →
      ∃ e, get_descriptive t = Except.error e) := by
  constructor
  · intro hnum hcat
    constructor
    · intro att hmem
      rcases hnum att hmem with ⟨hda, hha⟩
      exact ⟨headE_ok_of_ne_nil _
          ((getAttributeAnalysis_ne_nil_iff t att _).mpr hda),
        headE_ok_of_ne_nil _
          ((getAttributeAnalysis_ne_nil_iff t att _).mpr hha)⟩
    · intro att hmem
      rcases hcat att hmem with ⟨hda, hva⟩
      exact ⟨headE_ok_of_ne_nil _
          ((getAttributeAnalysis_ne_nil_iff t att _).mpr hda),
        headE_ok_of_ne_nil _
          ((getAttributeAnalysis_ne_nil_iff t att _).mpr hva)⟩
  · intro att hcase
    cases hgd : get_descriptive t with
    | error e => exact ⟨e, rfl⟩
    | ok d =>
      exfalso
      have hq := get_descriptive_ok_queries t d hgd
      rcases hcase with ⟨hmem, hempty⟩ | ⟨hmem, hempty⟩
      · rcases hq.1 att hmem with ⟨hd1, hd2⟩
        rcases hempty with h | h
        · exact hd1 h
        · exact hd2 h
      · rcases hq.2 att hmem with ⟨hd1, hd2⟩
        rcases hempty with h | h
        · exact hd1 h
        · exact hd2 h

theorem c10_witness :
    (∃ b, headE (tFull.getAttributeAnalysis "age" AnalysisName.DESCRIPTIVE) =
      Except.ok b) ∧
    (∃ e, get_descriptive tNoHistogram = Except.error e) :=
  ⟨(((c10_descriptive_requires_first_records tFull).1 (by decide) (by decide)).1
      "age" (by decide)).1,
    (c10_descriptive_requires_first_records tNoHistogram).2 "age"
      (Or.inl ⟨by decide, Or.inr (by decide)⟩)⟩

theorem c4_witness :
    (∃ d, descriptiveRowDict exDescAge = Except.ok d ∧
      dictKeys d = COMMON_ORDER ++ detailOrder attrAge.type ∧
      create_df_descriptive_row_from_analysis "age" exDescAge =
        Except.ok ⟨dictKeys d, ["age"], [d.map (fun p => PValue.num p.2)], ""⟩ ∧
      (∀ n ∈ COMMON_ORDER ++ detailOrder attrAge.type,
        (∀ m ∈ exDescAge.smetrics, m.name ≠ n) → dictLookup d n = some 0)) ∧
    (∀ (analysis2 : Analysis) (g : Attribute) (rest2 : List Attribute),
      analysis2.features = g :: rest2 → g.type = attrAge.type →
      (∀ m ∈ analysis2.smetrics,
        m.name ∈ COMMON_ORDER ++ detailOrder attrAge.type) →
      ∃ df2, create_df_descriptive_row_from_analysis "age" analysis2 =
          Except.ok df2 ∧
        df2.columns = COMMON_ORDER ++ detailOrder attrAge.type) :=
  c4_descriptive_row_shape "age" exDescAge attrAge [] rfl (by decide)

theorem diagFold_pres (s : PValue) (feats : List Attribute)
    (k : List String) (hk : ∀ c : String, k ≠ [c, c]) :
    ∀ m, dictLookup
        (feats.foldl (fun mm att => dictInsert mm [att.name, att.name] s) m) k =
      dictLookup m k := by
  induction feats with
  | nil => intro m; rfl
  | cons f fs ih =>
    intro m
    rw [List.foldl_cons, ih, dictLookup_dictInsert_ne _ _ _ _ (hk f.name)]

theorem diagFold_diag (s : PValue) (feats : List Attribute) (c : String) :
    ∀ m, (dictLookup m [c, c] = some s ∨ c ∈ feats.map (fun att => att.name)) →
      dictLookup
        (feats.foldl (fun mm att => dictInsert mm [att.name, att.name] s) m)
        [c, c] = some s := by
  induction feats with
  | nil =>
    intro m h
    rcases h with h | h
    · exact h
    · simp at h
  | cons f fs ih =>
    intro m h
    rw [List.foldl_cons]
    by_cases hc : f.name = c
    · subst hc
      exact ih _ (Or.inl (dictLookup_dictInsert_self _ _ _))
    · apply ih
      rcases h with h | h
      · left
        rw [dictLookup_dictInsert_ne _ _ _ _ (by simp [Ne.symm hc])]
        exact h
      · rw [List.map_cons] at h
        rcases List.mem_cons.mp h with h' | h'
        · exact absurd h'.symm hc
        · exact Or.inr h'

theorem noOrderStep_est_pair (s : PValue) (m : List (List String × PValue))
    (r : Analysis) (x y : Attribute) (sm : ScalarMetric)
    (tail : List ScalarMetric) (hf : r.features = [x, y])
    (hs : r.smetrics = sm :: tail) (hxy : x.name ≠ y.name)
    (m' : List (List String × PValue))
    (hstep : noOrderStep s m r = Except.ok m') :
    dictLookup m' [x.name, y.name] = some (PValue.num sm.value) ∧
      dictLookup m' [y.name, x.name] = some (PValue.num sm.value) := by
  simp only [noOrderStep, hs, hf, Except.ok.injEq, List.map_cons, List.map_nil,
    List.reverse_cons, List.reverse_nil, List.nil_append, List.cons_append,
    List.foldl_cons, List.foldl_nil] at hstep
  subst hstep
  constructor
  · rw [dictLookup_dictInsert_ne _ _ _ _ (by simp [hxy]),
      dictLookup_dictInsert_ne _ _ _ _ (by simp [Ne.symm hxy]),
      dictLookup_dictInsert_ne _ _ _ _ (by simp [hxy]),
      dictLookup_dictInsert_self]
  · rw [dictLookup_dictInsert_ne _ _ _ _ (by simp [hxy]),
      dictLookup_dictInsert_ne _ _ _ _ (by simp [Ne.symm hxy]),
      dictLookup_dictInsert_self]

theorem noOrderStep_pres_pair (s : PValue) (item : Analysis) (a b : String)
    (v : Rat) (hab : a ≠ b)
    (hval : ∀ (sm' : ScalarMetric) (t' : List ScalarMetric),
      item.smetrics = sm' :: t' →
      (item.features.map (fun att => att.name) = [a, b] ∨
        item.features.map (fun att => att.name) = [b, a]) → sm'.value = v)
    (m m' : List (List String × PValue))
    (hm1 : dictLookup m [a, b] = some (PValue.num v))
    (hm2 : dictLookup m [b, a] = some (PValue.num v))
    (hstep : noOrderStep s m item = Except.ok m') :
    dictLookup m' [a, b] = some (PValue.num v) ∧
      dictLookup m' [b, a] = some (PValue.num v) := by
  cases hsm : item.smetrics with
  | nil => simp [noOrderStep, hsm] at hstep
  | cons sm' t' =>
    simp only [noOrderStep, hsm, Except.ok.injEq] at hstep
    subst hstep
    have hne_ab : ∀ c : String, ([a, b] : List String) ≠ [c, c] := by
      intro c h
      simp at h
      exact hab (h.1.trans h.2.symm)
    have hne_ba : ∀ c : String, ([b, a] : List String) ≠ [c, c] := by
      intro c h
      simp at h
      exact hab (h.2.trans h.1.symm)
    rw [diagFold_pres s _ _ hne_ab, diagFold_pres s _ _ hne_ba]
    by_cases h1 : item.features.map (fun att => att.name) = [a, b]
    · have hv := hval sm' t' hsm (Or.inl h1)
      subst hv
      rw [h1]
      have hr : ([a, b] : List String).reverse = [b, a] := rfl
      rw [hr]
      constructor
      · rw [dictLookup_dictInsert_ne _ _ _ _ (by simp [hab]),
          dictLookup_dictInsert_self]
      · rw [dictLookup_dictInsert_self]
    · by_cases h2 : item.features.map (fun att => att.name) = [b, a]
      · have hv := hval sm' t' hsm (Or.inr h2)
        subst hv
        rw [h2]
        have hr : ([b, a] : List String).reverse = [a, b] := rfl
        rw [hr]
        constructor
        · rw [dictLookup_dictInsert_self]
        · rw [dictLookup_dictInsert_ne _ _ _ _ (by simp [Ne.symm hab]),
            dictLookup_dictInsert_self]
      · have hrev1 : (item.features.map (fun att => att.name)).reverse ≠
            ([a, b] : List String) := by
          intro h
          apply h2
          rw [← List.reverse_reverse (item.features.map (fun att => att.name)), h]
          rfl
        have hrev2 : (item.features.map (fun att => att.name)).reverse ≠
            ([b, a] : List String) := by
          intro h
          apply h1
          rw [← List.reverse_reverse (item.features.map (fun att => att.name)), h]
          rfl
        constructor
        · rw [dictLookup_dictInsert_ne _ _ _ _ (Ne.symm hrev1),
            dictLookup_dictInsert_ne _ _ _ _ (Ne.symm h1)]
          exact hm1
        · rw [dictLookup_dictInsert_ne _ _ _ _ (Ne.symm hrev2),
            dictLookup_dictInsert_ne _ _ _ _ (Ne.symm h2)]
          exact hm2

theorem noOrderStep_pres_diag (s : PValue) (item : Analysis) (c : String)
    (m m' : List (List String × PValue))
    (hm : dictLookup m [c, c] = some s)
    (hstep : noOrderStep s m item = Except.ok m') :
    dictLookup m' [c, c] = some s := by
  cases hsm : item.smetrics with
  | nil => simp [noOrderStep, hsm] at hstep
  | cons sm' t' =>
    simp only [noOrderStep, hsm, Except.ok.injEq] at hstep
    subst hstep
    apply diagFold_diag
    by_cases hc : c ∈ item.features.map (fun att => att.name)
    · exact Or.inr hc
    · left
      have h1 : item.features.map (fun att => att.name) ≠ ([c, c] : List String) := by
        intro h
        exact hc (by rw [h]; simp)
      have h2 : (item.features.map (fun att => att.name)).reverse ≠
          ([c, c] : List String) := by
        intro h
        apply h1
        rw [← List.reverse_reverse (item.features.map (fun att => att.name)), h]
        rfl
      rw [dictLookup_dictInsert_ne _ _ _ _ (Ne.symm h2),
        dictLookup_dictInsert_ne _ _ _ _ (Ne.symm h1)]
      exact hm

theorem noOrderStep_est_diag (s : PValue) (item : Analysis) (att : Attribute)
    (hatt : att ∈ item.features) (m m' : List (List String × PValue))
    (hstep : noOrderStep s m item = Except.ok m') :
    dictLookup m' [att.name, att.name] = some s := by
  cases hsm : item.smetrics with
  | nil => simp [noOrderStep, hsm] at hstep
  | cons sm' t' =>
    simp only [noOrderStep, hsm, Except.ok.injEq] at hstep
    subst hstep
    exact diagFold_diag s _ _ _ (Or.inr (List.mem_map_of_mem _ hatt))

theorem noOrderStep_ok (s : PValue) (m : List (List String × PValue))
    (r : Analysis) (h : r.smetrics ≠ []) :
    ∃ m1, noOrderStep s m r = Except.ok m1 := by
  cases hsm : r.smetrics with
  | nil => exact absurd hsm h
  | cons sm tail =>
    unfold noOrderStep
    rw [hsm]
    exact ⟨_, rfl⟩

theorem noOrderLoop_ok (s : PValue) (l : List Analysis)
    (hs : ∀ r ∈ l, r.smetrics ≠ []) :
    ∀ m, ∃ m', noOrderLoop s l m = Except.ok m' := by
  induction l with
  | nil => intro m; exact ⟨m, rfl⟩
  | cons item t ih =>
    intro m
    rcases noOrderStep_ok s m item (hs item (by simp)) with ⟨m1, hm1⟩
    rcases ih (fun r hr => hs r (List.mem_cons_of_mem _ hr)) m1 with ⟨m', hm'⟩
    refine ⟨m', ?_⟩
    simp only [noOrderLoop, hm1]
    exact hm'

theorem noOrderLoop_append (s : PValue) (l1 l2 : List Analysis) :
    ∀ m, noOrderLoop s (l1 ++ l2) m =
      match noOrderLoop s l1 m with
      | Except.error e => Except.error e
      | Except.ok m' => noOrderLoop s l2 m' := by
  induction l1 with
  | nil => intro m; rfl
  | cons item t ih =>
    intro m
    simp only [List.cons_append, noOrderLoop]
    cases hst : noOrderStep s m item with
    | error e => rfl
    | ok m' => exact ih m'

theorem noOrderLoop_pres_pair (s : PValue) (a b : String) (v : Rat)
    (hab : a ≠ b) (l : List Analysis)
    (hval : ∀ item ∈ l, ∀ (sm' : ScalarMetric) (t' : List ScalarMetric),
      item.smetrics = sm' :: t' →
      (item.features.map (fun att => att.name) = [a, b] ∨
        item.features.map (fun att => att.name) = [b, a]) → sm'.value = v) :
    ∀ m mf, dictLookup m [a, b] = some (PValue.num v) →
      dictLookup m [b, a] = some (PValue.num v) →
      noOrderLoop s l m = Except.ok mf →
      dictLookup mf [a, b] = some (PValue.num v) ∧
        dictLookup mf [b, a] = some (PValue.num v) := by
  induction l with
  | nil =>
    intro m mf h1 h2 h
    cases h
    exact ⟨h1, h2⟩
  | cons item t ih =>
    intro m mf h1 h2 h
    simp only [noOrderLoop] at h
    cases hst : noOrderStep s m item with
    | error e => simp [hst] at h
    | ok m1 =>
      simp only [hst] at h
      rcases noOrderStep_pres_pair s item a b v hab
          (hval item (by simp)) m m1 h1 h2 hst with ⟨p1, p2⟩
      exact ih (fun it hi => hval it (List.mem_cons_of_mem _ hi)) m1 mf p1 p2 h

theorem noOrderLoop_pres_diag (s : PValue) (c : String) (l : List Analysis) :
    ∀ m mf, dictLookup m [c, c] = some s →
      noOrderLoop s l m = Except.ok mf →
      dictLookup mf [c, c] = some s := by
  induction l with
  | nil =>
    intro m mf h1 h
    cases h
    exact h1
  | cons item t ih =>
    intro m mf h1 h
    simp only [noOrderLoop] at h
    cases hst : noOrderStep s m item with
    | error e => simp [hst] at h
    | ok m1 =>
      simp only [hst] at h
      exact ih m1 mf (noOrderStep_pres_diag s item c m m1 h1 hst) h

theorem noOrderLoop_diag_all (s : PValue) (l : List Analysis) :
    ∀ m mf, noOrderLoop s l m = Except.ok mf →
      ∀ item ∈ l, ∀ att ∈ item.features,
        dictLookup mf [att.name, att.name] = some s := by
  induction l with
  | nil => intro m mf h item hi; simp at hi
  | cons it t ih =>
    intro m mf h item hi att hatt
    simp only [noOrderLoop] at h
    cases hst : noOrderStep s m it with
    | error e => simp [hst] at h
    | ok m1 =>
      simp only [hst] at h
      rcases List.mem_cons.mp hi with rfl | hmem
      · exact noOrderLoop_pres_diag s att.name t m1 mf
          (noOrderStep_est_diag s item att hatt m m1 hst) h
      · exact ih m1 mf h item hmem att hatt

/-- C5. For the symmetric pair table built by
`create_no_order_pair_metric_df` (over records whose first scalar metric
exists, with at most one record per unordered attribute pair): every
two-feature record with distinct attribute names `(a, b)` and value `v`
yields cells `(a, b)` and `(b, a)` both equal to `v`, and every attribute
occurring in any record's features has diagonal cell `(a, a)` equal to
`same_match_value`. -/
theorem c5_symmetric_pair_cells (analysis_list : List Analysis)
    (same_match_value : PValue) (table_name : String)
    (hs : ∀ r ∈ analysis_list, r.smetrics ≠ [])
    (r : Analysis) (hr : r ∈ analysis_list) (x y : Attribute)
    (hf : r.features = [x, y]) (hxy : x.name ≠ y.name)
    (sm : ScalarMetric) (tail : List ScalarMetric)
    (hsm : r.smetrics = sm :: tail)
    (huniq : ∀ item ∈ analysis_list,
      ∀ (sm' : ScalarMetric) (t' : List ScalarMetric),
      item.smetrics = sm' :: t' →
      (item.features.map (fun att => att.name) = [x.name, y.name] ∨
        item.features.map (fun att => att.name) = [y.name, x.name]) →
      sm'.value = sm.value) :
    ∃ mf, create_no_order_pair_metric_df analysis_list same_match_value
        table_name = Except.ok mf ∧
      dictLookup mf [x.name, y.name] = some (PValue.num sm.value) ∧
      dictLookup mf [y.name, x.name] = some (PValue.num sm.value) ∧
      (∀ item ∈ analysis_list, ∀ att ∈ item.features,
        dictLookup mf [att.name, att.name] = some same_match_value) := by
  rcases noOrderLoop_ok same_match_value analysis_list hs [] with ⟨mf, hmf⟩
  have hdiag := noOrderLoop_diag_all same_match_value analysis_list [] mf hmf
  have hpair : dictLookup mf [x.name, y.name] = some (PValue.num sm.value) ∧
      dictLookup mf [y.name, x.name] = some (PValue.num sm.value) := by
    rcases List.append_of_mem hr with ⟨l1, l2, hl⟩
    subst hl
    rw [noOrderLoop_append] at hmf
    cases hA : noOrderLoop same_match_value l1 [] with
    | error e => simp [hA] at hmf
    | ok m1 =>
      simp only [hA] at hmf
      simp only [noOrderLoop] at hmf
      cases hB : noOrderStep same_match_value m1 r with
      | error e => simp [hB] at hmf
      | ok m2 =>
        simp only [hB] at hmf
        rcases noOrderStep_est_pair same_match_value m1 r x y sm tail hf hsm
            hxy m2 hB with ⟨e1, e2⟩
        exact noOrderLoop_pres_pair same_match_value x.name y.name sm.value
          hxy l2
          (fun item hi => huniq item
            (by simp only [List.mem_append, List.mem_cons]; exact Or.inr (Or.inr hi)))
          m2 mf e1 e2 hmf
  exact ⟨mf, hmf, hpair.1, hpair.2, hdiag⟩

theorem c5_witness :
    ∃ mf, create_no_order_pair_metric_df [exPearson] (PValue.num 1)
        "Pearson Correlation" = Except.ok mf ∧
      dictLookup mf ["x", "y"] = some (PValue.num 8) ∧
      dictLookup mf ["y", "x"] = some (PValue.num 8) ∧
      (∀ item ∈ [exPearson], ∀ att ∈ item.features,
        dictLookup mf [att.name, att.name] = some (PValue.num 1)) :=
  c5_symmetric_pair_cells [exPearson] (PValue.num 1) "Pearson Correlation"
    (by decide) exPearson (by simp)
    ⟨"x", AttributeType.NUMERICAL⟩ ⟨"y", AttributeType.NUMERICAL⟩ rfl
    (by decide) ⟨"value", 8⟩ [] rfl
    (by
      intro item hi sm' t' hsm hnames
      rw [List.mem_singleton] at hi
      subst hi
      have : ([⟨"value", 8⟩] : List ScalarMetric) = sm' :: t' := hsm
      rcases this with ⟨⟩
      rfl)

theorem orderStep_cases (s : PValue) (m : List (List String × PValue))
    (item : Analysis) (m' : List (List String × PValue))
    (hstep : orderStep s m item = Except.ok m') :
    ∃ (sm' : ScalarMetric) (t' : List ScalarMetric),
      item.smetrics = sm' :: t' ∧
      ∃ n0 n1 rest, item.features.map (fun att => att.name) = n0 :: n1 :: rest ∧
        ((n0 ≠ n1 ∧
            m' = dictInsert m (n0 :: n1 :: rest) (PValue.num sm'.value)) ∨
          (n0 = n1 ∧
            m' = dictInsert
              (dictInsert m (n0 :: n1 :: rest) (PValue.num sm'.value))
              (n0 :: n1 :: rest) s)) := by
  cases hsm : item.smetrics with
  | nil => simp [orderStep, hsm] at hstep
  | cons sm' t' =>
    refine ⟨sm', t', rfl, ?_⟩
    cases hns : item.features.map (fun att => att.name) with
    | nil => simp [orderStep, hsm, hns] at hstep
    | cons n0 restl =>
      cases restl with
      | nil => simp [orderStep, hsm, hns] at hstep
      | cons n1 rest2 =>
        refine ⟨n0, n1, rest2, rfl, ?_⟩
        simp only [orderStep, hsm, hns] at hstep
        by_cases h01 : n0 = n1
        · rw [if_pos h01] at hstep
          injection hstep with h
          exact Or.inr ⟨h01, h.symm⟩
        · rw [if_neg h01] at hstep
          injection hstep with h
          exact Or.inl ⟨h01, h.symm⟩

theorem orderStep_est (s : PValue) (m : List (List String × PValue))
    (r : Analysis) (x y : Attribute) (sm : ScalarMetric)
    (tail : List ScalarMetric) (hf : r.features = [x, y])
    (hs : r.smetrics = sm :: tail) (hxy : x.name ≠ y.name)
    (m' : List (List String × PValue))
    (hstep : orderStep s m r = Except.ok m') :
    dictLookup m' [x.name, y.name] = some (PValue.num sm.value) := by
  rcases orderStep_cases s m r m' hstep with
    ⟨sm', t', hsm', n0, n1, rest, hns, hcase⟩
  rw [hs] at hsm'
  injection hsm' with h1 h2
  subst h1
  rw [hf] at hns
  simp only [List.map_cons, List.map_nil] at hns
  injection hns with e0 hns'
  injection hns' with e1 e2
  subst e0
  subst e1
  subst e2
  rcases hcase with ⟨_, rfl⟩ | ⟨he, _⟩
  · exact dictLookup_dictInsert_self _ _ _
  · exact absurd he hxy

theorem orderStep_pres_pair (s : PValue) (item : Analysis) (a b : String)
    (v : Rat) (hab : a ≠ b)
    (hval : ∀ (sm' : ScalarMetric) (t' : List ScalarMetric),
      item.smetrics = sm' :: t' →
      item.features.map (fun att => att.name) = [a, b] → sm'.value = v)
    (m m' : List (List String × PValue))
    (hm : dictLookup m [a, b] = some (PValue.num v))
    (hstep : orderStep s m item = Except.ok m') :
    dictLookup m' [a, b] = some (PValue.num v) := by
  rcases orderStep_cases s m item m' hstep with
    ⟨sm', t', hsm', n0, n1, rest, hns, hcase⟩
  by_cases hk : (n0 :: n1 :: rest : List String) = [a, b]
  · rcases hcase with ⟨hne, rfl⟩ | ⟨heq, rfl⟩
    · have hv : sm'.value = v := hval sm' t' hsm' (by rw [hns, hk])
      rw [hk, hv]
      exact dictLookup_dictInsert_self _ _ _
    · exfalso
      simp at hk
      exact hab ((hk.1.symm.trans heq).trans hk.2.1)
  · rcases hcase with ⟨hne, rfl⟩ | ⟨heq, rfl⟩
    · rw [dictLookup_dictInsert_ne _ _ _ _ (fun h => hk h.symm)]
      exact hm
    · rw [dictLookup_dictInsert_ne _ _ _ _ (fun h => hk h.symm),
        dictLookup_dictInsert_ne _ _ _ _ (fun h => hk h.symm)]
      exact hm

theorem orderStep_dom (s : PValue) (item : Analysis)
    (m m' : List (List String × PValue)) (k : List String)
    (hstep : orderStep s m item = Except.ok m')
    (hk : dictLookup m' k ≠ none) :
    dictLookup m k ≠ none ∨ item.features.map (fun att => att.name) = k := by
  rcases orderStep_cases s m item m' hstep with
    ⟨sm', t', hsm', n0, n1, rest, hns, hcase⟩
  rcases hcase with ⟨hne, rfl⟩ | ⟨heq, rfl⟩
  · rcases dictLookup_dictInsert_some _ _ _ _ hk with h | h
    · exact Or.inr (by rw [hns, h])
    · exact Or.inl h
  · rcases dictLookup_dictInsert_some _ _ _ _ hk with h | h
    · exact Or.inr (by rw [hns, h])
    · rcases dictLookup_dictInsert_some _ _ _ _ h with h' | h'
      · exact Or.inr (by rw [hns, h'])
      · exact Or.inl h'

theorem orderStep_est_selfpair (s : PValue) (item : Analysis) (c : String)
    (hns : item.features.map (fun att => att.name) = [c, c])
    (m m' : List (List String × PValue))
    (hstep : orderStep s m item = Except.ok m') :
    dictLookup m' [c, c] = some s := by
  rcases orderStep_cases s m item m' hstep with
    ⟨sm', t', hsm', n0, n1, rest, hns', hcase⟩
  rw [hns] at hns'
  injection hns' with e0 h'
  injection h' with e1 e2
  subst e0
  subst e1
  subst e2
  rcases hcase with ⟨hne, _⟩ | ⟨_, rfl⟩
  · exact absurd rfl hne
  · exact dictLookup_dictInsert_self _ _ _

theorem orderStep_pres_selfpair (s : PValue) (item : Analysis) (c : String)
    (m m' : List (List String × PValue))
    (hm : dictLookup m [c, c] = some s)
    (hstep : orderStep s m item = Except.ok m') :
    dictLookup m' [c, c] = some s := by
  by_cases hns : item.features.map (fun att => att.name) = [c, c]
  · exact orderStep_est_selfpair s item c hns m m' hstep
  · rcases orderStep_cases s m item m' hstep with
      ⟨sm', t', hsm', n0, n1, rest, hns', hcase⟩
    have hkey : (n0 :: n1 :: rest : List String) ≠ [c, c] := by
      intro h
      exact hns (by rw [hns', h])
    rcases hcase with ⟨hne, rfl⟩ | ⟨heq, rfl⟩
    · rw [dictLookup_dictInsert_ne _ _ _ _ (Ne.symm hkey)]
      exact hm
    · rw [dictLookup_dictInsert_ne _ _ _ _ (Ne.symm hkey),
        dictLookup_dictInsert_ne _ _ _ _ (Ne.symm hkey)]
      exact hm

theorem orderStep_ok (s : PValue) (m : List (List String × PValue))
    (r : Analysis) (hsm : r.smetrics ≠ []) (hlen : 2 ≤ r.features.length) :
    ∃ m1, orderStep s m r = Except.ok m1 := by
  cases hs : r.smetrics with
  | nil => exact absurd hs hsm
  | cons sm tail =>
    cases hf : r.features with
    | nil => rw [hf] at hlen; simp at hlen
    | cons f0 restf =>
      cases restf with
      | nil => rw [hf] at hlen; simp at hlen
      | cons f1 rest2 =>
        have hns : r.features.map (fun att => att.name) =
            f0.name :: f1.name :: rest2.map (fun att => att.name) := by
          rw [hf]
          simp
        by_cases h01 : f0.name = f1.name
        · refine ⟨dictInsert
              (dictInsert m (f0.name :: f1.name :: rest2.map (fun att => att.name))
                (PValue.num sm.value))
              (f0.name :: f1.name :: rest2.map (fun att => att.name)) s, ?_⟩
          simp only [orderStep, hs, hns]
          rw [if_pos h01]
        · refine ⟨dictInsert m
              (f0.name :: f1.name :: rest2.map (fun att => att.name))
              (PValue.num sm.value), ?_⟩
          simp only [orderStep, hs, hns]
          rw [if_neg h01]

theorem orderLoop_ok (s : PValue) (l : List Analysis)
    (hwf : ∀ r ∈ l, r.smetrics ≠ [] ∧ 2 ≤ r.features.length) :
    ∀ m, ∃ m', orderLoop s l m = Except.ok m' := by
  induction l with
  | nil => intro m; exact ⟨m, rfl⟩
  | cons item t ih =>
    intro m
    rcases orderStep_ok s m item (hwf item (by simp)).1 (hwf item (by simp)).2
      with ⟨m1, hm1⟩
    rcases ih (fun r hr => hwf r (List.mem_cons_of_mem _ hr)) m1 with ⟨m', hm'⟩
    refine ⟨m', ?_⟩
    simp only [orderLoop, hm1]
    exact hm'

theorem orderLoop_append (s : PValue) (l1 l2 : List Analysis) :
    ∀ m, orderLoop s (l1 ++ l2) m =
      match orderLoop s l1 m with
      | Except.error e => Except.error e
      | Except.ok m' => orderLoop s l2 m' := by
  induction l1 with
  | nil => intro m; rfl
  | cons item t ih =>
    intro m
    simp only [List.cons_append, orderLoop]
    cases hst : orderStep s m item with
    | error e => rfl
    | ok m' => exact ih m'

theorem orderLoop_pres_pair (s : PValue) (a b : String) (v : Rat)
    (hab : a ≠ b) (l : List Analysis)
    (hval : ∀ item ∈ l, ∀ (sm' : ScalarMetric) (t' : List ScalarMetric),
      item.smetrics = sm' :: t' →
      item.features.map (fun att => att.name) = [a, b] → sm'.value = v) :
    ∀ m mf, dictLookup m [a, b] = some (PValue.num v) →
      orderLoop s l m = Except.ok mf →
      dictLookup mf [a, b] = some (PValue.num v) := by
  induction l with
  | nil =>
    intro m mf h1 h
    cases h
    exact h1
  | cons item t ih =>
    intro m mf h1 h
    simp only [orderLoop] at h
    cases hst : orderStep s m item with
    | error e => simp [hst] at h
    | ok m1 =>
      simp only [hst] at h
      exact ih (fun it hi => hval it (List.mem_cons_of_mem _ hi)) m1 mf
        (orderStep_pres_pair s item a b v hab (hval item (by simp)) m m1 h1 hst) h

theorem orderLoop_dom (s : PValue) (l : List Analysis) :
    ∀ m mf, orderLoop s l m = Except.ok mf →
      ∀ k, dictLookup mf k ≠ none →
        dictLookup m k ≠ none ∨
          ∃ item ∈ l, item.features.map (fun att => att.name) = k := by
  induction l with
  | nil =>
    intro m mf h k hk
    cases h
    exact Or.inl hk
  | cons item t ih =>
    intro m mf h k hk
    simp only [orderLoop] at h
    cases hst : orderStep s m item with
    | error e => simp [hst] at h
    | ok m1 =>
      simp only [hst] at h
      rcases ih m1 mf h k hk with h1 | ⟨it, hit, hk'⟩
      · rcases orderStep_dom s item m m1 k hst h1 with h2 | h2
        · exact Or.inl h2
        · exact Or.inr ⟨item, by simp, h2⟩
      · exact Or.inr ⟨it, List.mem_cons_of_mem _ hit, hk'⟩

theorem orderLoop_pres_selfpair (s : PValue) (c : String) (l : List Analysis) :
    ∀ m mf, dictLookup m [c, c] = some s →
      orderLoop s l m = Except.ok mf →
      dictLookup mf [c, c] = some s := by
  induction l with
  | nil =>
    intro m mf h1 h
    cases h
    exact h1
  | cons item t ih =>
    intro m mf h1 h
    simp only [orderLoop] at h
    cases hst : orderStep s m item with
    | error e => simp [hst] at h
    | ok m1 =>
      simp only [hst] at h
      exact ih m1 mf (orderStep_pres_selfpair s item c m m1 h1 hst) h

theorem orderLoop_selfpair_all (s : PValue) (l : List Analysis) :
    ∀ m mf, orderLoop s l m = Except.ok mf →
      ∀ item ∈ l, ∀ c, item.features.map (fun att => att.name) = [c, c] →
        dictLookup mf [c, c] = some s := by
  induction l with
  | nil => intro m mf h item hi; simp at hi
  | cons it t ih =>
    intro m mf h item hi c hc
    simp only [orderLoop] at h
    cases hst : orderStep s m it with
    | error e => simp [hst] at h
    | ok m1 =>
      simp only [hst] at h
      rcases List.mem_cons.mp hi with rfl | hmem
      · exact orderLoop_pres_selfpair s c t m1 mf
          (orderStep_est_selfpair s item c hc m m1 hst) h
      · exact ih m1 mf h item hmem c hc

/-- C6. For the ordered pair table built by `create_order_pair_metric_df`
(over records with a first scalar metric and at least two features, with at
most one record per ordered attribute pair): a record with distinct feature
names `(a, b)` and value `v` yields cell `(a, b) = v`; a cell is set only at
the exact feature-name tuple of some record in the list — in particular
`(b, a)` is unset unless an explicit `(b, a)`-ordered record exists; and the
`same_match_value` diagonal override applies exactly to records whose two
feature names coincide, not to every attribute. -/
theorem c6_ordered_pair_cells (analysis_list : List Analysis)
    (same_match_value : PValue) (table_name : String)
    (hwf : ∀ r ∈ analysis_list, r.smetrics ≠ [] ∧ 2 ≤ r.features.length)
    (r : Analysis) (hr : r ∈ analysis_list) (x y : Attribute)
    (hf : r.features = [x, y]) (hxy : x.name ≠ y.name)
    (sm : ScalarMetric) (tail : List ScalarMetric)
    (hsm : r.smetrics = sm :: tail)
    (huniq : ∀ item ∈ analysis_list,
      ∀ (sm' : ScalarMetric) (t' : List ScalarMetric),
      item.smetrics = sm' :: t' →
      item.features.map (fun att => att.name) = [x.name, y.name] →
      sm'.value = sm.value) :
    ∃ mf, create_order_pair_metric_df analysis_list same_match_value
        table_name = Except.ok mf ∧
      dictLookup mf [x.name, y.name] = some (PValue.num sm.value) ∧
      (∀ k, dictLookup mf k ≠ none →
        ∃ item ∈ analysis_list,
          item.features.map (fun att => att.name) = k) ∧
      (∀ item ∈ analysis_list, ∀ c,
        item.features.map (fun att => att.name) = [c, c] →
        dictLookup mf [c, c] = some same_match_value) := by
  rcases orderLoop_ok same_match_value analysis_list hwf [] with ⟨mf, hmf⟩
  have hdom : ∀ k, dictLookup mf k ≠ none →
      ∃ item ∈ analysis_list,
        item.features.map (fun att => att.name) = k := by
    intro k hk
    rcases orderLoop_dom same_match_value analysis_list [] mf hmf k hk with
      h | h
    · exact absurd rfl h
    · exact h
  have hself := orderLoop_selfpair_all same_match_value analysis_list [] mf hmf
  have hpair : dictLookup mf [x.name, y.name] = some (PValue.num sm.value) := by
    rcases List.append_of_mem hr with ⟨l1, l2, hl⟩
    subst hl
    rw [orderLoop_append] at hmf
    cases hA : orderLoop same_match_value l1 [] with
    | error e => simp [hA] at hmf
    | ok m1 =>
      simp only [hA] at hmf
      simp only [orderLoop] at hmf
      cases hB : orderStep same_match_value m1 r with
      | error e => simp [hB] at hmf
      | ok m2 =>
        simp only [hB] at hmf
        exact orderLoop_pres_pair same_match_value x.name y.name sm.value hxy
          l2
          (fun item hi => huniq item
            (by simp only [List.mem_append, List.mem_cons]
                exact Or.inr (Or.inr hi)))
          m2 mf (orderStep_est same_match_value m1 r x y sm tail hf hsm hxy
            m2 hB) hmf
  exact ⟨mf, hmf, hpair, hdom, hself⟩

theorem c6_witness :
    ∃ mf, create_order_pair_metric_df [exAnova] (PValue.str "NA") "NA" =
        Except.ok mf ∧
      dictLookup mf ["u", "x"] = some (PValue.num 2) ∧
      (∀ k, dictLookup mf k ≠ none →
        ∃ item ∈ [exAnova],
          item.features.map (fun att => att.name) = k) ∧
      (∀ item ∈ [exAnova], ∀ c,
        item.features.map (fun att => att.name) = [c, c] →
        dictLookup mf [c, c] = some (PValue.str "NA")) :=
  c6_ordered_pair_cells [exAnova] (PValue.str "NA") "NA" (by decide) exAnova
    (by simp) ⟨"u", AttributeType.CATEGORICAL⟩ ⟨"x", AttributeType.NUMERICAL⟩
    rfl (by decide) ⟨"value", 2⟩ [] rfl
    (by
      intro item hi sm' t' hsm hnames
      rw [List.mem_singleton] at hi
      subst hi
      have h : ([⟨"value", 2⟩] : List ScalarMetric) = sm' :: t' := hsm
      rcases h with ⟨⟩
      rfl)
